import Mathlib

/-!
Verification of the rq terminal HTTP client: a shallow embedding of its
core data model and component logic (rq-core content handling, the
stateful request list, the response panel with its save sub-flow, the
message dialog, the application key router and the startup sequence),
with theorems checking the behaviour the design documentation ascribes
to each part.

Machine integers are modelled as `Nat` or `Int`; byte buffers as
`List Nat` with entries below 256; Rust `String`s either as Lean
`String`s (where only their text matters) or as lists of Unicode scalar
values (where their UTF-8 encoding matters).  Fallible Rust code
returning `Result` is modelled with `Except`.
-/

namespace Rq

/-! ## Bytes and UTF-8

`src/rq-core/src/request.rs`, `impl From<Bytes> for Content`, converts a
response body into `Content::Text` when `String::from_utf8` succeeds and
into `Content::Bytes` otherwise.  `String::from_utf8` is the Rust
standard library's strict UTF-8 validator; `utf8Step`/`utf8Decode`
model it by the table it validates against (RFC 3629): continuation
bytes 0x80-0xBF, leading bytes 0xC2-0xDF (two-byte), 0xE0-0xEF
(three-byte) and 0xF0-0xF4 (four-byte), with tightened second-byte
ranges after 0xE0/0xED/0xF0/0xF4 that exclude overlong forms,
surrogates and values above 0x10FFFF. -/

/-- Constraint on the second byte of a three-byte sequence led by `b0`:
0xA0-0xBF after 0xE0 (no overlong forms), 0x80-0x9F after 0xED (no
surrogates), 0x80-0xBF otherwise. -/
def utf8Snd3 (b0 b1 : Nat) : Prop :=
  (b0 = 0xE0 → 0xA0 ≤ b1) ∧ (b0 = 0xED → b1 ≤ 0x9F) ∧ 0x80 ≤ b1 ∧ b1 ≤ 0xBF

/-- Constraint on the second byte of a four-byte sequence led by `b0`:
0x90-0xBF after 0xF0 (no overlong forms), 0x80-0x8F after 0xF4 (nothing
above 0x10FFFF), 0x80-0xBF otherwise. -/
def utf8Snd4 (b0 b1 : Nat) : Prop :=
  (b0 = 0xF0 → 0x90 ≤ b1) ∧ (b0 = 0xF4 → b1 ≤ 0x8F) ∧ 0x80 ≤ b1 ∧ b1 ≤ 0xBF

instance (b0 b1 : Nat) : Decidable (utf8Snd3 b0 b1) := by
  unfold utf8Snd3; infer_instance

instance (b0 b1 : Nat) : Decidable (utf8Snd4 b0 b1) := by
  unfold utf8Snd4; infer_instance

/-- One step of UTF-8 decoding: the scalar value of the first encoded
character and the remaining bytes, or `none` at the end of the buffer or
at an invalid sequence. -/
def utf8Step : List Nat → Option (Nat × List Nat)
  | [] => none
  | b0 :: rest =>
    if b0 < 0x80 then some (b0, rest)
    else if 0xC2 ≤ b0 ∧ b0 ≤ 0xDF then
      match rest with
      | b1 :: rest1 =>
        if 0x80 ≤ b1 ∧ b1 ≤ 0xBF then
          some ((b0 - 0xC0) * 0x40 + (b1 - 0x80), rest1)
        else none
      | [] => none
    else if 0xE0 ≤ b0 ∧ b0 ≤ 0xEF then
      match rest with
      | b1 :: b2 :: rest2 =>
        if utf8Snd3 b0 b1 ∧ 0x80 ≤ b2 ∧ b2 ≤ 0xBF then
          some ((b0 - 0xE0) * 0x1000 + (b1 - 0x80) * 0x40 + (b2 - 0x80), rest2)
        else none
      | _ => none
    else if 0xF0 ≤ b0 ∧ b0 ≤ 0xF4 then
      match rest with
      | b1 :: b2 :: b3 :: rest3 =>
        if utf8Snd4 b0 b1 ∧ (0x80 ≤ b2 ∧ b2 ≤ 0xBF) ∧ (0x80 ≤ b3 ∧ b3 ≤ 0xBF) then
          some ((b0 - 0xF0) * 0x40000 + (b1 - 0x80) * 0x1000 +
                  (b2 - 0x80) * 0x40 + (b3 - 0x80), rest3)
        else none
      | _ => none
    else none

/-- The UTF-8 encoding of one Unicode scalar value. -/
def utf8Encode (c : Nat) : List Nat :=
  if c < 0x80 then [c]
  else if c < 0x800 then [0xC0 + c / 0x40, 0x80 + c % 0x40]
  else if c < 0x10000 then
    [0xE0 + c / 0x1000, 0x80 + c / 0x40 % 0x40, 0x80 + c % 0x40]
  else
    [0xF0 + c / 0x40000, 0x80 + c / 0x1000 % 0x40,
     0x80 + c / 0x40 % 0x40, 0x80 + c % 0x40]

/-- The UTF-8 encoding of a list of scalar values. -/
def utf8EncodeAll : List Nat → List Nat
  | [] => []
  | c :: cs => utf8Encode c ++ utf8EncodeAll cs

theorem utf8Encode_one (b0 : Nat) (h : b0 < 0x80) : utf8Encode b0 = [b0] := by
  unfold utf8Encode
  rw [if_pos h]

theorem utf8Encode_two (b0 b1 : Nat) (h0 : 0xC2 ≤ b0) (h0b : b0 ≤ 0xDF)
    (h1 : 0x80 ≤ b1) (h1b : b1 ≤ 0xBF) :
    utf8Encode ((b0 - 0xC0) * 0x40 + (b1 - 0x80)) = [b0, b1] := by
  unfold utf8Encode
  rw [if_neg (by omega), if_pos (by omega)]
  have hd : ((b0 - 0xC0) * 0x40 + (b1 - 0x80)) / 0x40 = b0 - 0xC0 := by omega
  have hm : ((b0 - 0xC0) * 0x40 + (b1 - 0x80)) % 0x40 = b1 - 0x80 := by omega
  rw [hd, hm]
  have e0 : 0xC0 + (b0 - 0xC0) = b0 := by omega
  have e1 : 0x80 + (b1 - 0x80) = b1 := by omega
  rw [e0, e1]

theorem utf8Encode_three (b0 b1 b2 : Nat) (h0 : 0xE0 ≤ b0) (h0b : b0 ≤ 0xEF)
    (hs : utf8Snd3 b0 b1) (h2 : 0x80 ≤ b2) (h2b : b2 ≤ 0xBF) :
    utf8Encode ((b0 - 0xE0) * 0x1000 + (b1 - 0x80) * 0x40 + (b2 - 0x80)) =
      [b0, b1, b2] := by
  obtain ⟨hA, hD, h1, h1b⟩ := hs
  have hge : 0x800 ≤ (b0 - 0xE0) * 0x1000 + (b1 - 0x80) * 0x40 + (b2 - 0x80) := by
    by_cases hE : b0 = 0xE0
    · have := hA hE; omega
    · omega
  unfold utf8Encode
  rw [if_neg (by omega), if_neg (by omega), if_pos (by omega)]
  have hd0 : ((b0 - 0xE0) * 0x1000 + (b1 - 0x80) * 0x40 + (b2 - 0x80)) / 0x1000 =
      b0 - 0xE0 := by omega
  have hd1 : ((b0 - 0xE0) * 0x1000 + (b1 - 0x80) * 0x40 + (b2 - 0x80)) / 0x40 % 0x40 =
      b1 - 0x80 := by omega
  have hm : ((b0 - 0xE0) * 0x1000 + (b1 - 0x80) * 0x40 + (b2 - 0x80)) % 0x40 =
      b2 - 0x80 := by omega
  rw [hd0, hd1, hm]
  have e0 : 0xE0 + (b0 - 0xE0) = b0 := by omega
  have e1 : 0x80 + (b1 - 0x80) = b1 := by omega
  have e2 : 0x80 + (b2 - 0x80) = b2 := by omega
  rw [e0, e1, e2]

theorem utf8Encode_four (b0 b1 b2 b3 : Nat) (h0 : 0xF0 ≤ b0) (h0b : b0 ≤ 0xF4)
    (hs : utf8Snd4 b0 b1) (h2 : 0x80 ≤ b2) (h2b : b2 ≤ 0xBF)
    (h3 : 0x80 ≤ b3) (h3b : b3 ≤ 0xBF) :
    utf8Encode ((b0 - 0xF0) * 0x40000 + (b1 - 0x80) * 0x1000 +
        (b2 - 0x80) * 0x40 + (b3 - 0x80)) = [b0, b1, b2, b3] := by
  obtain ⟨hA, hD, h1, h1b⟩ := hs
  have hge : 0x10000 ≤ (b0 - 0xF0) * 0x40000 + (b1 - 0x80) * 0x1000 +
      (b2 - 0x80) * 0x40 + (b3 - 0x80) := by
    by_cases hF : b0 = 0xF0
    · have := hA hF; omega
    · omega
  unfold utf8Encode
  rw [if_neg (by omega), if_neg (by omega), if_neg (by omega)]
  have hd0 : ((b0 - 0xF0) * 0x40000 + (b1 - 0x80) * 0x1000 +
      (b2 - 0x80) * 0x40 + (b3 - 0x80)) / 0x40000 = b0 - 0xF0 := by omega
  have hd1 : ((b0 - 0xF0) * 0x40000 + (b1 - 0x80) * 0x1000 +
      (b2 - 0x80) * 0x40 + (b3 - 0x80)) / 0x1000 % 0x40 = b1 - 0x80 := by omega
  have hd2 : ((b0 - 0xF0) * 0x40000 + (b1 - 0x80) * 0x1000 +
      (b2 - 0x80) * 0x40 + (b3 - 0x80)) / 0x40 % 0x40 = b2 - 0x80 := by omega
  have hm : ((b0 - 0xF0) * 0x40000 + (b1 - 0x80) * 0x1000 +
      (b2 - 0x80) * 0x40 + (b3 - 0x80)) % 0x40 = b3 - 0x80 := by omega
  rw [hd0, hd1, hd2, hm]
  have e0 : 0xF0 + (b0 - 0xF0) = b0 := by omega
  have e1 : 0x80 + (b1 - 0x80) = b1 := by omega
  have e2 : 0x80 + (b2 - 0x80) = b2 := by omega
  have e3 : 0x80 + (b3 - 0x80) = b3 := by omega
  rw [e0, e1, e2, e3]

/-- A successful decoding step consumed exactly the encoding of the
returned scalar value, and strictly shrank the buffer. -/
theorem utf8Step_spec (bs : List Nat) (c : Nat) (rest : List Nat)
    (h : utf8Step bs = some (c, rest)) :
    utf8Encode c ++ rest = bs ∧ rest.length < bs.length := by
  match bs with
  | [] => simp [utf8Step] at h
  | b0 :: t =>
    simp only [utf8Step.eq_def] at h
    by_cases h1 : b0 < 0x80
    · rw [if_pos h1] at h
      obtain ⟨rfl, rfl⟩ : b0 = c ∧ t = rest := by
        simpa using h
      rw [utf8Encode_one _ h1]
      exact ⟨rfl, by simp⟩
    · rw [if_neg h1] at h
      by_cases h2 : 0xC2 ≤ b0 ∧ b0 ≤ 0xDF
      · rw [if_pos h2] at h
        match t with
        | [] => simp at h
        | b1 :: t1 =>
          dsimp only at h
          by_cases hc : 0x80 ≤ b1 ∧ b1 ≤ 0xBF
          · rw [if_pos hc] at h
            obtain ⟨rfl, rfl⟩ : (b0 - 0xC0) * 0x40 + (b1 - 0x80) = c ∧ t1 = rest := by
              simpa using h
            rw [utf8Encode_two b0 b1 h2.1 h2.2 hc.1 hc.2]
            exact ⟨rfl, by simp; omega⟩
          · rw [if_neg hc] at h; simp at h
      · rw [if_neg h2] at h
        by_cases h3 : 0xE0 ≤ b0 ∧ b0 ≤ 0xEF
        · rw [if_pos h3] at h
          match t with
          | [] => simp at h
          | [b1] => simp at h
          | b1 :: b2 :: t2 =>
            dsimp only at h
            by_cases hc : utf8Snd3 b0 b1 ∧ 0x80 ≤ b2 ∧ b2 ≤ 0xBF
            · rw [if_pos hc] at h
              obtain ⟨rfl, rfl⟩ :
                  (b0 - 0xE0) * 0x1000 + (b1 - 0x80) * 0x40 + (b2 - 0x80) = c ∧
                    t2 = rest := by
                simpa using h
              rw [utf8Encode_three b0 b1 b2 h3.1 h3.2 hc.1 hc.2.1 hc.2.2]
              exact ⟨rfl, by simp; omega⟩
            · rw [if_neg hc] at h; simp at h
        · rw [if_neg h3] at h
          by_cases h4 : 0xF0 ≤ b0 ∧ b0 ≤ 0xF4
          · rw [if_pos h4] at h
            match t with
            | [] => simp at h
            | [b1] => simp at h
            | [b1, b2] => simp at h
            | b1 :: b2 :: b3 :: t3 =>
              dsimp only at h
              by_cases hc : utf8Snd4 b0 b1 ∧ (0x80 ≤ b2 ∧ b2 ≤ 0xBF) ∧
                  (0x80 ≤ b3 ∧ b3 ≤ 0xBF)
              · rw [if_pos hc] at h
                obtain ⟨rfl, rfl⟩ :
                    (b0 - 0xF0) * 0x40000 + (b1 - 0x80) * 0x1000 +
                        (b2 - 0x80) * 0x40 + (b3 - 0x80) = c ∧ t3 = rest := by
                  simpa using h
                rw [utf8Encode_four b0 b1 b2 b3 h4.1 h4.2 hc.1 hc.2.1.1 hc.2.1.2
                  hc.2.2.1 hc.2.2.2]
                exact ⟨rfl, by simp; omega⟩
              · rw [if_neg hc] at h; simp at h
          · rw [if_neg h4] at h; simp at h

/-- `String::from_utf8`: the scalar values of a byte buffer, or `none`
when the buffer is not valid UTF-8. -/
def utf8Decode (bs : List Nat) : Option (List Nat) :=
  match hs : utf8Step bs with
  | some cr => (utf8Decode cr.2).map (fun cs => cr.1 :: cs)
  | none =>
    match bs with
    | [] => some []
    | _ => none
termination_by bs.length
decreasing_by exact (utf8Step_spec bs cr.1 cr.2 hs).2

/-- Re-encoding a successfully decoded buffer gives back exactly the
original bytes. -/
theorem utf8Decode_encodeAll (bs cs : List Nat) (h : utf8Decode bs = some cs) :
    utf8EncodeAll cs = bs := by
  have main : ∀ (n : Nat) (bs cs : List Nat), bs.length ≤ n →
      utf8Decode bs = some cs → utf8EncodeAll cs = bs := by
    intro n
    induction n with
    | zero =>
      intro bs cs hlen h
      match bs with
      | [] =>
        rw [utf8Decode] at h
        simp [utf8Step] at h
        simp_all [utf8EncodeAll]
      | b :: t => simp at hlen
    | succ n ih =>
      intro bs cs hlen h
      rw [utf8Decode] at h
      split at h
      · rename_i cr hs
        obtain ⟨cs0, hdec, rfl⟩ := Option.map_eq_some'.mp h
        obtain ⟨henc, hlt⟩ := utf8Step_spec bs cr.1 cr.2 hs
        have hrec := ih cr.2 cs0 (by omega) hdec
        rw [utf8EncodeAll, hrec, henc]
      · rename_i hs
        split at h
        · simp only [Option.some.injEq] at h
          simp_all [utf8EncodeAll]
        · simp at h
  exact main bs.length bs cs (Nat.le_refl _) h

/-! ## Content (src/rq-core/src/request.rs)

`Content` is the payload of the older `Response`: decoded text when the
body bytes are valid UTF-8, the raw bytes otherwise.  A `Content.text`
carries the scalar values of the Rust `String`. -/

inductive Content where
  | bytes (b : List Nat)
  | text (s : List Nat)
deriving DecidableEq

/-- `impl From<Bytes> for Content`: `String::from_utf8` on the buffer;
`Ok(s)` gives `Content::Text(s)`, `Err(_)` gives `Content::Bytes` of the
original buffer. -/
def Content.fromBytes (value : List Nat) : Content :=
  match utf8Decode value with
  | some s => .text s
  | none => .bytes value

/-- C10: converting a byte buffer into response `Content` is total and
lossless — every valid-UTF-8 byte sequence becomes `text` whose string
re-encodes to exactly the original bytes, and every other byte sequence
becomes `bytes` holding the original buffer unchanged. -/
theorem content_fromBytes_total_lossless (value : List Nat) :
    (∃ s, utf8Decode value = some s ∧ Content.fromBytes value = .text s ∧
      utf8EncodeAll s = value) ∨
    (utf8Decode value = none ∧ Content.fromBytes value = .bytes value) := by
  cases hd : utf8Decode value with
  | some s =>
    left
    exact ⟨s, rfl, by rw [Content.fromBytes, hd], utf8Decode_encodeAll value s hd⟩
  | none =>
    right
    exact ⟨rfl, by rw [Content.fromBytes, hd]⟩

/-! ## StatefulList (src/rq-cli/src/ui.rs)

The selection cursor of the Request List: a `ListState`-backed index over
the immutable request vector.  `withItems` selects index 0; `next` and
`previous` wrap cyclically.  On an empty vector Rust's `next` panics
(`(i + 1) % 0`) and `previous` underflows, so the theorems about the
wrapping operations carry `0 < items.length`. -/

structure StatefulList (α : Type) where
  selected : Option Nat
  items : List α
deriving DecidableEq

/-- `StatefulList::with_items`: keeps the items and selects index 0. -/
def StatefulList.withItems {α : Type} (items : List α) : StatefulList α :=
  ⟨some 0, items⟩

/-- `StatefulList::next`: advance cyclically (`(i + 1) % len`); when
nothing is selected, select 0. -/
def StatefulList.next {α : Type} (l : StatefulList α) : StatefulList α :=
  match l.selected with
  | some i => { l with selected := some ((i + 1) % l.items.length) }
  | none => { l with selected := some 0 }

/-- `StatefulList::previous`: step back cyclically (0 wraps to
`len - 1`); when nothing is selected, select 0. -/
def StatefulList.previous {α : Type} (l : StatefulList α) : StatefulList α :=
  match l.selected with
  | some i => { l with selected := some (if i = 0 then l.items.length - 1 else i - 1) }
  | none => { l with selected := some 0 }

/-- `StatefulList::selected_index`: the selected index, 0 when nothing
is selected. -/
def StatefulList.selectedIndex {α : Type} (l : StatefulList α) : Nat :=
  l.selected.getD 0

/-- The reachable-state invariant of the cursor: something is selected
and it indexes into the items. -/
def StatefulList.inv {α : Type} (l : StatefulList α) : Prop :=
  ∃ i, l.selected = some i ∧ i < l.items.length

theorem StatefulList.next_items {α : Type} (l : StatefulList α) :
    l.next.items = l.items := by
  unfold StatefulList.next
  cases l.selected <;> rfl

theorem StatefulList.previous_items {α : Type} (l : StatefulList α) :
    l.previous.items = l.items := by
  unfold StatefulList.previous
  cases l.selected <;> rfl

theorem StatefulList.next_selected {α : Type} (l : StatefulList α) (i : Nat)
    (h : l.selected = some i) :
    l.next.selected = some ((i + 1) % l.items.length) := by
  unfold StatefulList.next
  rw [h]

theorem StatefulList.previous_selected {α : Type} (l : StatefulList α) (i : Nat)
    (h : l.selected = some i) (hlen : 0 < l.items.length) (hi : i < l.items.length) :
    l.previous.selected = some ((i + (l.items.length - 1)) % l.items.length) := by
  unfold StatefulList.previous
  rw [h]
  simp only [Option.some.injEq]
  by_cases h0 : i = 0
  · subst h0
    rw [if_pos rfl, Nat.zero_add, Nat.mod_eq_of_lt (by omega)]
  · have hmod : (i + (l.items.length - 1)) % l.items.length = i - 1 := by
      have harith : i + (l.items.length - 1) = (i - 1) + 1 * l.items.length := by omega
      rw [harith, Nat.add_mul_mod_self_right]
      exact Nat.mod_eq_of_lt (by omega)
    rw [if_neg h0, hmod]

theorem StatefulList.next_iterate {α : Type} (l : StatefulList α) (i : Nat)
    (h : l.selected = some i) (hi : i < l.items.length) :
    ∀ k, (StatefulList.next^[k] l).selected = some ((i + k) % l.items.length) ∧
      (StatefulList.next^[k] l).items = l.items := by
  intro k
  induction k with
  | zero =>
    simpa [Function.iterate_zero, h] using (Nat.mod_eq_of_lt hi).symm
  | succ k ih =>
    obtain ⟨hsel, hitems⟩ := ih
    rw [Function.iterate_succ_apply']
    constructor
    · rw [StatefulList.next_selected _ _ hsel, hitems]
      simp only [Option.some.injEq]
      rw [Nat.mod_add_mod, Nat.add_assoc]
    · rw [StatefulList.next_items, hitems]

theorem StatefulList.previous_iterate {α : Type} (l : StatefulList α) (i : Nat)
    (h : l.selected = some i) (hi : i < l.items.length) :
    ∀ k, (StatefulList.previous^[k] l).selected =
        some ((i + k * (l.items.length - 1)) % l.items.length) ∧
      (StatefulList.previous^[k] l).items = l.items := by
  have hlen : 0 < l.items.length := by omega
  intro k
  induction k with
  | zero =>
    simpa [Function.iterate_zero, h] using (Nat.mod_eq_of_lt (by omega)).symm
  | succ k ih =>
    obtain ⟨hsel, hitems⟩ := ih
    rw [Function.iterate_succ_apply']
    have hjlt : (i + k * (l.items.length - 1)) % l.items.length <
        (StatefulList.previous^[k] l).items.length := by
      rw [hitems]
      exact Nat.mod_lt _ hlen
    constructor
    · rw [StatefulList.previous_selected _ _ hsel (by rw [hitems]; exact hlen) hjlt,
        hitems, Nat.mod_add_mod, Nat.succ_mul, Nat.add_assoc]
    · rw [StatefulList.previous_items, hitems]

theorem StatefulList.eq_of_parts {α : Type} (l m : StatefulList α)
    (h1 : l.selected = m.selected) (h2 : l.items = m.items) : l = m := by
  cases l; cases m; simp_all

/-- C6 (amended: at least one request parsed): the Request List cursor
starts valid, stays a valid index in `[0, N)` under `next`/`previous`,
and applying `next` (or `previous`) N times returns the cursor to its
starting state. -/
theorem statefulList_cursor_valid_and_cyclic {α : Type} (items : List α)
    (hN : 0 < items.length) :
    ((StatefulList.withItems items).inv ∧
      (StatefulList.withItems items).selectedIndex < items.length) ∧
    (∀ l : StatefulList α, l.items = items → l.inv →
      (l.selectedIndex < items.length ∧ l.next.inv ∧ l.previous.inv)) ∧
    (∀ l : StatefulList α, l.items = items → l.inv →
      (StatefulList.next^[items.length] l = l ∧
        StatefulList.previous^[items.length] l = l)) := by
  refine ⟨⟨⟨0, rfl, hN⟩, by simpa [StatefulList.withItems, StatefulList.selectedIndex]⟩,
    ?_, ?_⟩
  · intro l hitems ⟨i, hsel, hi⟩
    refine ⟨?_, ?_, ?_⟩
    · rw [StatefulList.selectedIndex, hsel]
      simpa [← hitems] using hi
    · exact ⟨(i + 1) % l.items.length,
        StatefulList.next_selected l i hsel,
        by rw [StatefulList.next_items]; exact Nat.mod_lt _ (by omega)⟩
    · refine ⟨(i + (l.items.length - 1)) % l.items.length,
        StatefulList.previous_selected l i hsel (by omega) hi, ?_⟩
      rw [StatefulList.previous_items]
      exact Nat.mod_lt _ (by omega)
  · intro l hitems ⟨i, hsel, hi⟩
    subst hitems
    constructor
    · obtain ⟨hsel2, hitems2⟩ := StatefulList.next_iterate l i hsel hi l.items.length
      refine StatefulList.eq_of_parts _ _ ?_ hitems2
      rw [hsel2, Nat.add_mod_right, Nat.mod_eq_of_lt hi, hsel]
    · obtain ⟨hsel2, hitems2⟩ := StatefulList.previous_iterate l i hsel hi l.items.length
      refine StatefulList.eq_of_parts _ _ ?_ hitems2
      rw [hsel2, hsel]
      simp only [Option.some.injEq]
      rw [Nat.add_mul_mod_self_left]
      exact Nat.mod_eq_of_lt hi

/-- C6 counterexample: the claim quantifies over every N, but with zero
parsed requests the cursor created by `with_items` already selects index
0, which is not a valid index of the empty request vector. -/
theorem statefulList_empty_cursor_invalid :
    (StatefulList.withItems ([] : List Nat)).selectedIndex = 0 ∧
    ¬ (StatefulList.withItems ([] : List Nat)).selectedIndex <
        (StatefulList.withItems ([] : List Nat)).items.length := by
  exact ⟨rfl, by decide⟩

/-- Witness for `statefulList_cursor_valid_and_cyclic` at the three-item
list `[0, 1, 2]`. -/
theorem statefulList_cursor_witness :
    0 < ([0, 1, 2] : List Nat).length ∧
    (((StatefulList.withItems ([0, 1, 2] : List Nat)).inv ∧
      (StatefulList.withItems ([0, 1, 2] : List Nat)).selectedIndex <
        ([0, 1, 2] : List Nat).length) ∧
    (∀ l : StatefulList Nat, l.items = [0, 1, 2] → l.inv →
      (l.selectedIndex < ([0, 1, 2] : List Nat).length ∧ l.next.inv ∧ l.previous.inv)) ∧
    (∀ l : StatefulList Nat, l.items = [0, 1, 2] → l.inv →
      (StatefulList.next^[([0, 1, 2] : List Nat).length] l = l ∧
        StatefulList.previous^[([0, 1, 2] : List Nat).length] l = l))) :=
  ⟨by decide, statefulList_cursor_valid_and_cyclic [0, 1, 2] (by decide)⟩

/-! ## Keys, messages and handle results (src/rq-cli/src/components/mod.rs)

`HandleSuccess` is the per-component input-handling verdict; `Message`
is the global notification type of the message dialog.  `KeyCode` covers
the crossterm key codes the components match on. -/

inductive KeyCode where
  | enter
  | esc
  | up
  | down
  | left
  | right
  | backspace
  | char (c : Char)
  | other
deriving DecidableEq

inductive HandleSuccess where
  | consumed
  | ignored
deriving DecidableEq

inductive Message where
  | info (s : String)
  | error (s : String)
deriving DecidableEq

/-! ## Payloads (src/rq-core/src/request/mime.rs) -/

structure BytePayload where
  extension : Option String
  bytes : List Nat
deriving DecidableEq

structure TextPayload where
  extension : Option String
  charset : String
  text : String
deriving DecidableEq

inductive Payload where
  | bytes (b : BytePayload)
  | text (t : TextPayload)
deriving DecidableEq

/-- Modelled from the spec: the `Response` consumed by the response
panel (`rq_core::request::Response` of the panel's rq-core revision,
whose definition is not among the repository files; the revision that is
present carries `body: Content` instead).  Per the spec it is the
immutable value `{status code, header multimap, protocol-version string,
payload}`.  `status` holds the rendering of the status code that Rust's
`Display` for `StatusCode` produces (for example `200 OK`), `headers`
the header pairs in iteration order with their values read as text. -/
structure Response where
  status : String
  headers : List (String × String)
  version : String
  payload : Payload
deriving DecidableEq

/-! ## Save menu (src/rq-cli/src/components/menu.rs and the `SaveOption`
menu of src/rq-cli/src/components/response_panel.rs) -/

inductive SaveOption where
  | all
  | body
deriving DecidableEq

instance : Inhabited SaveOption := ⟨SaveOption.all⟩

structure Menu (α : Type) where
  idx : Nat
  items : List α
deriving DecidableEq

/-- `Menu::new`: selection starts at index 0. -/
def Menu.new {α : Type} (items : List α) : Menu α := ⟨0, items⟩

def Menu.next {α : Type} (m : Menu α) : Menu α :=
  { m with idx := (m.idx + 1) % m.items.length }

def Menu.previous {α : Type} (m : Menu α) : Menu α :=
  { m with idx := if m.idx = 0 then m.items.length - 1 else m.idx - 1 }

/-- `Menu::selected`: the item under the cursor.  Rust indexes the
vector (panicking when out of range); the menus the panel builds always
hold two items with `idx < 2`, and the total model falls back to
`default` out of range. -/
def Menu.selected {α : Type} [Inhabited α] (m : Menu α) : α :=
  m.items.getD m.idx default

/-- `Menu::on_event` (`j`/Down next, `k`/Up previous, anything else
ignored): `some` of the moved menu when the key was consumed. -/
def Menu.onEvent {α : Type} (m : Menu α) (k : KeyCode) : Option (Menu α) :=
  match k with
  | .down => some m.next
  | .up => some m.previous
  | .char c =>
    if c = 'j' then some m.next
    else if c = 'k' then some m.previous
    else none
  | _ => none

/-! ## Response panel (src/rq-cli/src/components/response_panel.rs) -/

/-- Splitting a character list at every newline (keeping empty
pieces). -/
def splitNl : List Char → List (List Char)
  | [] => [[]]
  | c :: t =>
    if c = '\n' then [] :: splitNl t
    else
      match splitNl t with
      | l :: ls => (c :: l) :: ls
      | [] => [[c]]

def stripCRList (l : List Char) : List Char :=
  if l.getLast? = some '\r' then l.dropLast else l

/-- Rust `str::lines`: split at `\n`, the final line ending optional,
with a trailing `\r` stripped from each line. -/
def rustLines (s : String) : List String :=
  if s.data.isEmpty then []
  else
    let parts := splitNl s.data
    ((if s.data.getLast? = some '\n' then parts.dropLast else parts).map
      stripCRList).map String.mk

/-- `Vec::join("\n")`. -/
def joinNl : List String → String
  | [] => ""
  | [x] => x
  | x :: y :: xs => x ++ "\n" ++ joinNl (y :: xs)

/-- Concatenation of a list of strings. -/
def concatAll : List String → String
  | [] => ""
  | x :: xs => x ++ concatAll xs

/-- `String::from_utf8_lossy`, approximately: scalar values of maximal
valid sequences, one replacement character (0xFFFD) per rejected byte
(the standard library replaces per maximal invalid subpart).  Reached
only with `show_raw` set, which no code path of the repository ever
sets. -/
def utf8Lossy (bs : List Nat) : List Nat :=
  match hs : utf8Step bs with
  | some cr => cr.1 :: utf8Lossy cr.2
  | none =>
    match bs with
    | [] => []
    | _ :: t => 0xFFFD :: utf8Lossy t
termination_by bs.length
decreasing_by
  · exact (utf8Step_spec bs cr.1 cr.2 hs).2
  · simp

def codepointsToString (cps : List Nat) : String :=
  String.mk (cps.map Char.ofNat)

/-- What the panel would write on a save: UTF-8 text (a Rust `String`
turned into bytes) or a raw byte buffer. -/
inductive SaveData where
  | str (s : String)
  | bytes (bs : List Nat)
deriving DecidableEq

/-- `Payload → Vec<u8>` of the body-only save arm:
`Payload::Bytes(b) => b.bytes, Payload::Text(t) => t.text.into()`. -/
def Payload.saveData : Payload → SaveData
  | .bytes b => .bytes b.bytes
  | .text t => .str t.text

structure ResponsePanel where
  content : Option Response
  scroll : Int
  inputPopup : Option String
  saveOption : SaveOption
  saveMenu : Option (Menu SaveOption)
  showRaw : Bool
deriving DecidableEq

/-- `ResponsePanel::default()`. -/
def ResponsePanel.default : ResponsePanel :=
  ⟨none, 0, none, .all, none, false⟩

/-- `impl From<Response> for ResponsePanel`. -/
def ResponsePanel.fromResponse (r : Response) : ResponsePanel :=
  { ResponsePanel.default with content := some r }

/-- `u16::saturating_add(1)` on the scroll offset, over `Int` so that
the non-negativity claim is not a triviality of the carrier type. -/
def u16SatAdd1 (n : Int) : Int :=
  if n + 1 ≤ 65535 then n + 1 else 65535

/-- `u16::saturating_sub(1)` on the scroll offset. -/
def u16SatSub1 (n : Int) : Int :=
  if 1 ≤ n then n - 1 else 0

def ResponsePanel.scrollDown (p : ResponsePanel) : ResponsePanel :=
  { p with scroll := u16SatAdd1 p.scroll }

def ResponsePanel.scrollUp (p : ResponsePanel) : ResponsePanel :=
  { p with scroll := u16SatSub1 p.scroll }

/-- `ResponsePanel::body`: the payload, or the `Request not sent`
error. -/
def ResponsePanel.body (p : ResponsePanel) : Except String Payload :=
  match p.content with
  | some response => .ok response.payload
  | none => .error "Request not sent"

/-- `ResponsePanel::body_as_string`: the display lines of the body — for
text, a decode note followed by the decoded text's lines; for bytes, a
lossy dump when `show_raw` is set and the literal `raw bytes` placeholder
otherwise; the error text when no response is present. -/
def ResponsePanel.bodyAsString (p : ResponsePanel) : List String :=
  match p.body with
  | .ok payload =>
    match payload with
    | .text t =>
      ("decoded with encoding: \x27" ++ t.charset ++ "\x27") :: rustLines t.text
    | .bytes b =>
      if p.showRaw then
        "lossy utf-8 decode" :: rustLines (codepointsToString (utf8Lossy b.bytes))
      else ["raw bytes"]
  | .error e => [e]

/-- `ResponsePanel::to_string`: `"{version} {status}\n{headers}\n\n{body}"`
with one `"{k}: {v}\n"` per header and the body display lines joined by
newlines. -/
def ResponsePanel.serialize (p : ResponsePanel) : Except String String :=
  match p.content with
  | some response =>
    let headers := response.headers.foldl
      (fun acc kv => acc ++ kv.1 ++ ": " ++ kv.2 ++ "\n") ""
    let body := joinNl p.bodyAsString
    .ok (response.version ++ " " ++ response.status ++ "\n" ++ headers ++
      "\n\n" ++ body)
  | none => .error "Request not sent"

/-- `tui_input`'s `EventHandler` for the path input, as far as the value
is observable: printable characters insert, Backspace deletes, Left and
Right only move the cursor (consumed, value unchanged); Enter, Esc and
the remaining keys are not input requests. -/
def inputHandle (k : KeyCode) (v : String) : Option String :=
  match k with
  | .char c => some (v.push c)
  | .backspace => some (v.dropRight 1)
  | .left => some v
  | .right => some v
  | _ => none

/-- What `ResponsePanel::on_event` did: the new panel, its
`HandleResult` (`.error` models the `?` propagation), the file writes it
attempted as `(path, data)`, and the messages it pushed. -/
structure PanelStep where
  panel : ResponsePanel
  result : Except String HandleSuccess
  written : List (String × SaveData)
  messages : List Message

/-- The `to_save` computation of the Enter arm of the path popup. -/
def ResponsePanel.toSave (p : ResponsePanel) : Except String SaveData :=
  match p.saveOption with
  | .all => p.serialize.map SaveData.str
  | .body => p.body.map Payload.saveData

/-- The tail of `ResponsePanel::on_event`: scrolling and opening the
save menu (reached when no popup consumed the key). -/
def ResponsePanel.onEventBase (p : ResponsePanel) (k : KeyCode) : PanelStep :=
  match k with
  | .down => ⟨p.scrollDown, .ok .consumed, [], []⟩
  | .up => ⟨p.scrollUp, .ok .consumed, [], []⟩
  | .char c =>
    if c = 'j' then ⟨p.scrollDown, .ok .consumed, [], []⟩
    else if c = 'k' then ⟨p.scrollUp, .ok .consumed, [], []⟩
    else if c = 's' then
      ⟨{ p with saveMenu := some (Menu.new [SaveOption.all, SaveOption.body]) },
        .ok .consumed, [], []⟩
    else ⟨p, .ok .ignored, [], []⟩
  | _ => ⟨p, .ok .ignored, [], []⟩

/-- The save-menu block of `ResponsePanel::on_event`. -/
def ResponsePanel.onEventMenu (p : ResponsePanel) (k : KeyCode) : PanelStep :=
  match p.saveMenu with
  | some menu =>
    match menu.onEvent k with
    | some menu2 => ⟨{ p with saveMenu := some menu2 }, .ok .consumed, [], []⟩
    | none =>
      match k with
      | .enter =>
        ⟨{ p with saveOption := menu.selected, saveMenu := none, inputPopup := some "" },
          .ok .consumed, [], []⟩
      | .esc => ⟨{ p with saveMenu := none }, .ok .consumed, [], []⟩
      | _ => p.onEventBase k
  | none => p.onEventBase k

/-- `ResponsePanel::on_event`: the path-input popup first (its editor,
then Enter = write the file and close, Esc = discard), then the
save-mode menu, then scrolling / opening the menu.  `fs` is the
filesystem collaborator: the outcome of `std::fs::write` for a given
path and content. -/
def ResponsePanel.onEvent (fs : String → SaveData → Except String Unit)
    (p : ResponsePanel) (k : KeyCode) : PanelStep :=
  match p.inputPopup with
  | some v =>
    match inputHandle k v with
    | some v2 => ⟨{ p with inputPopup := some v2 }, .ok .consumed, [], []⟩
    | none =>
      match k with
      | .enter =>
        match p.toSave with
        | .error e => ⟨p, .error e, [], []⟩
        | .ok toSave =>
          match fs v toSave with
          | .error e => ⟨p, .error e, [(v, toSave)], []⟩
          | .ok _ =>
            ⟨{ p with inputPopup := none }, .ok .consumed, [(v, toSave)],
              [.info ("Saved to " ++ v)]⟩
      | .esc => ⟨{ p with inputPopup := none }, .ok .consumed, [], []⟩
      | _ => p.onEventMenu k
  | none => p.onEventMenu k

theorem foldl_headers (hs : List (String × String)) (acc : String) :
    hs.foldl (fun acc kv => acc ++ kv.1 ++ ": " ++ kv.2 ++ "\n") acc =
      acc ++ concatAll (hs.map (fun kv => kv.1 ++ ": " ++ kv.2 ++ "\n")) := by
  induction hs generalizing acc with
  | nil => simp [concatAll]
  | cons hd tl ih =>
    simp only [List.foldl_cons, List.map_cons, concatAll, ih]
    simp [String.append_assoc]

/-- The output of `ResponsePanel::to_string` laid out: status line,
headers one per line, blank separator, then the body display lines. -/
theorem ResponsePanel.serialize_eq (p : ResponsePanel) (r : Response)
    (h : p.content = some r) :
    p.serialize = .ok (r.version ++ " " ++ r.status ++ "\n" ++
      concatAll (r.headers.map (fun kv => kv.1 ++ ": " ++ kv.2 ++ "\n")) ++
      "\n\n" ++ joinNl p.bodyAsString) := by
  unfold ResponsePanel.serialize
  simp only [h]
  rw [foldl_headers]
  simp [String.append_assoc]

/-- `ResponsePanel::on_event` on Enter with the path popup open and the
write succeeding: file written, popup closed, `Info` pushed. -/
theorem ResponsePanel.onEvent_enter_ok (fs : String → SaveData → Except String Unit)
    (p : ResponsePanel) (v : String) (d : SaveData)
    (hip : p.inputPopup = some v) (hd : p.toSave = .ok d)
    (hfs : fs v d = .ok ()) :
    ResponsePanel.onEvent fs p .enter =
      ⟨{ p with inputPopup := none }, .ok .consumed, [(v, d)],
        [.info ("Saved to " ++ v)]⟩ := by
  unfold ResponsePanel.onEvent
  simp only [hip]
  dsimp only [inputHandle]
  simp only [hd, hfs]

/-- `ResponsePanel::on_event` on Enter with the path popup open and the
write failing: the error propagates (`?`) and the panel — the open popup
included — is left as it was. -/
theorem ResponsePanel.onEvent_enter_err (fs : String → SaveData → Except String Unit)
    (p : ResponsePanel) (v : String) (d : SaveData) (e : String)
    (hip : p.inputPopup = some v) (hd : p.toSave = .ok d)
    (hfs : fs v d = .error e) :
    ResponsePanel.onEvent fs p .enter = ⟨p, .error e, [(v, d)], []⟩ := by
  unfold ResponsePanel.onEvent
  simp only [hip]
  dsimp only [inputHandle]
  simp only [hd, hfs]

/-- `ResponsePanel::on_event` on Esc with the path popup open: the
pending save is discarded, nothing written, no message. -/
theorem ResponsePanel.onEvent_esc_popup (fs : String → SaveData → Except String Unit)
    (p : ResponsePanel) (v : String) (hip : p.inputPopup = some v) :
    ResponsePanel.onEvent fs p .esc =
      ⟨{ p with inputPopup := none }, .ok .consumed, [], []⟩ := by
  unfold ResponsePanel.onEvent
  simp only [hip]
  dsimp only [inputHandle]

/-- A response used by the concrete instances: `HTTP/1.1 200 OK` with no
headers and the decoded text body `ok`. -/
def exampleTextResponse : Response :=
  ⟨"200 OK", [], "HTTP/1.1", .text ⟨none, "utf-8", "ok"⟩⟩

/-- The serialization the spec's words describe for the entire-response
save: `version status\nheader:value...\n\n\nbody` with the payload
itself and nothing else; `none` for a byte payload, whose raw bytes this
`String`-valued comparison form cannot carry. -/
def specEntireSave (r : Response) : Option String :=
  match r.payload with
  | .text t => some (r.version ++ " " ++ r.status ++ "\n" ++
      concatAll (r.headers.map (fun kv => kv.1 ++ ": " ++ kv.2 ++ "\n")) ++
      "\n\n" ++ t.text)
  | .bytes _ => none

/-- C1 counterexample: for a plain text response, `to_string` inserts
the `decoded with encoding` note before the payload, so the saved file
differs from the `version status\n\n\nbody` the claim promises. -/
theorem responsePanel_entire_save_not_exact :
    (ResponsePanel.fromResponse exampleTextResponse).serialize =
      .ok "HTTP/1.1 200 OK\n\n\ndecoded with encoding: \x27utf-8\x27\nok" ∧
    specEntireSave exampleTextResponse = some "HTTP/1.1 200 OK\n\n\nok" ∧
    ("HTTP/1.1 200 OK\n\n\ndecoded with encoding: \x27utf-8\x27\nok" : String) ≠
      "HTTP/1.1 200 OK\n\n\nok" := by
  refine ⟨?_, rfl, by decide⟩
  rfl

/-- C1 (amended): the entire-response save reconstructs the version and
status line, the recorded headers one per line, and a blank separator,
but then the body *display lines* — for a text payload a
`decoded with encoding` note followed by the decoded text split into
lines, for a byte payload the `raw bytes` placeholder — rather than the
bare payload; the confirmed save writes exactly that serialization. -/
theorem responsePanel_entire_save_serialization (p : ResponsePanel) (r : Response)
    (h : p.content = some r) :
    p.serialize = .ok (r.version ++ " " ++ r.status ++ "\n" ++
      concatAll (r.headers.map (fun kv => kv.1 ++ ": " ++ kv.2 ++ "\n")) ++
      "\n\n" ++ joinNl p.bodyAsString) ∧
    (∀ (fs : String → SaveData → Except String Unit) (path : String),
      p.inputPopup = some path → p.saveOption = .all →
      (ResponsePanel.onEvent fs p .enter).written =
        [(path, .str (r.version ++ " " ++ r.status ++ "\n" ++
          concatAll (r.headers.map (fun kv => kv.1 ++ ": " ++ kv.2 ++ "\n")) ++
          "\n\n" ++ joinNl p.bodyAsString))]) := by
  have hser := ResponsePanel.serialize_eq p r h
  refine ⟨hser, ?_⟩
  intro fs path hip hso
  have hd : p.toSave = .ok (.str (r.version ++ " " ++ r.status ++ "\n" ++
      concatAll (r.headers.map (fun kv => kv.1 ++ ": " ++ kv.2 ++ "\n")) ++
      "\n\n" ++ joinNl p.bodyAsString)) := by
    unfold ResponsePanel.toSave
    rw [hso, hser]
    rfl
  cases hfs : fs path (.str (r.version ++ " " ++ r.status ++ "\n" ++
      concatAll (r.headers.map (fun kv => kv.1 ++ ": " ++ kv.2 ++ "\n")) ++
      "\n\n" ++ joinNl p.bodyAsString)) with
  | ok u =>
    cases u
    rw [ResponsePanel.onEvent_enter_ok fs p path _ hip hd hfs]
  | error e =>
    rw [ResponsePanel.onEvent_enter_err fs p path _ e hip hd hfs]

/-- Witness for `responsePanel_entire_save_serialization` at a concrete
text response. -/
theorem responsePanel_entire_save_serialization_witness :
    (ResponsePanel.fromResponse exampleTextResponse).content =
      some exampleTextResponse ∧
    ((ResponsePanel.fromResponse exampleTextResponse).serialize =
      .ok (exampleTextResponse.version ++ " " ++ exampleTextResponse.status ++ "\n" ++
        concatAll (exampleTextResponse.headers.map
          (fun kv => kv.1 ++ ": " ++ kv.2 ++ "\n")) ++
        "\n\n" ++ joinNl (ResponsePanel.fromResponse exampleTextResponse).bodyAsString) ∧
    (∀ (fs : String → SaveData → Except String Unit) (path : String),
      (ResponsePanel.fromResponse exampleTextResponse).inputPopup = some path →
      (ResponsePanel.fromResponse exampleTextResponse).saveOption = .all →
      (ResponsePanel.onEvent fs (ResponsePanel.fromResponse exampleTextResponse)
          .enter).written =
        [(path, .str (exampleTextResponse.version ++ " " ++
          exampleTextResponse.status ++ "\n" ++
          concatAll (exampleTextResponse.headers.map
            (fun kv => kv.1 ++ ": " ++ kv.2 ++ "\n")) ++
          "\n\n" ++
          joinNl (ResponsePanel.fromResponse exampleTextResponse).bodyAsString))])) :=
  ⟨rfl, responsePanel_entire_save_serialization
    (ResponsePanel.fromResponse exampleTextResponse) exampleTextResponse rfl⟩

/-- C7: the body-only save hands the filesystem exactly the decoded
text of a `Text` payload or the raw bytes of a `Bytes` payload — never
the on-screen placeholder, and with no header or status lines. -/
theorem responsePanel_body_save_verbatim (fs : String → SaveData → Except String Unit)
    (p : ResponsePanel) (r : Response) (path : String)
    (hc : p.content = some r) (hip : p.inputPopup = some path)
    (hso : p.saveOption = .body) :
    (ResponsePanel.onEvent fs p .enter).written =
      [(path, match r.payload with
              | .text t => SaveData.str t.text
              | .bytes b => SaveData.bytes b.bytes)] := by
  have hd : p.toSave = .ok (match r.payload with
      | .text t => SaveData.str t.text
      | .bytes b => SaveData.bytes b.bytes) := by
    unfold ResponsePanel.toSave ResponsePanel.body
    rw [hso, hc]
    cases hpay : r.payload <;> simp [hpay, Payload.saveData, Except.map]
  cases hfs : fs path (match r.payload with
      | .text t => SaveData.str t.text
      | .bytes b => SaveData.bytes b.bytes) with
  | ok u =>
    cases u
    rw [ResponsePanel.onEvent_enter_ok fs p path _ hip hd hfs]
  | error e =>
    rw [ResponsePanel.onEvent_enter_err fs p path _ e hip hd hfs]

/-- Witness for `responsePanel_body_save_verbatim`: a panel holding the
example response, body-save mode, path popup at `out.txt`. -/
theorem responsePanel_body_save_verbatim_witness :
    ({ ResponsePanel.fromResponse exampleTextResponse with
        inputPopup := some "out.txt", saveOption := .body } :
      ResponsePanel).content = some exampleTextResponse ∧
    (ResponsePanel.onEvent (fun _ _ => .ok ())
        { ResponsePanel.fromResponse exampleTextResponse with
          inputPopup := some "out.txt", saveOption := .body } .enter).written =
      [("out.txt", match exampleTextResponse.payload with
                   | .text t => SaveData.str t.text
                   | .bytes b => SaveData.bytes b.bytes)] :=
  ⟨rfl, responsePanel_body_save_verbatim (fun _ _ => .ok ())
    { ResponsePanel.fromResponse exampleTextResponse with
      inputPopup := some "out.txt", saveOption := .body }
    exampleTextResponse "out.txt" rfl rfl rfl⟩

/-- C5: in the path-entry state, Enter whose write succeeds saves the
file, pushes the `Info` message and closes the popup (back to Viewing);
Enter whose write fails (as the filesystem does for the empty path)
propagates the failure and keeps the popup open unchanged; Esc discards
the pending save, closes the popup and writes nothing. -/
theorem responsePanel_save_path_flow
    (fsOk fsErr : String → SaveData → Except String Unit)
    (p pE : ResponsePanel) (path : String) (d dE : SaveData) (e : String)
    (hip : p.inputPopup = some path) (hd : p.toSave = .ok d)
    (hfs : fsOk path d = .ok ())
    (hipE : pE.inputPopup = some "") (hdE : pE.toSave = .ok dE)
    (hfsE : fsErr "" dE = .error e) :
    ResponsePanel.onEvent fsOk p .enter =
      ⟨{ p with inputPopup := none }, .ok .consumed, [(path, d)],
        [.info ("Saved to " ++ path)]⟩ ∧
    ResponsePanel.onEvent fsErr pE .enter = ⟨pE, .error e, [("", dE)], []⟩ ∧
    ResponsePanel.onEvent fsOk p .esc =
      ⟨{ p with inputPopup := none }, .ok .consumed, [], []⟩ :=
  ⟨ResponsePanel.onEvent_enter_ok fsOk p path d hip hd hfs,
    ResponsePanel.onEvent_enter_err fsErr pE "" dE e hipE hdE hfsE,
    ResponsePanel.onEvent_esc_popup fsOk p path hip⟩

/-- Witness for `responsePanel_save_path_flow`: save of the example
response body to `out.txt` against a filesystem that accepts `out.txt`
and rejects the empty path. -/
theorem responsePanel_save_path_flow_witness :
    ResponsePanel.onEvent
        (fun path _ => if path = "" then .error "ENOENT" else .ok ())
        { ResponsePanel.fromResponse exampleTextResponse with
          inputPopup := some "out.txt", saveOption := .body } .enter =
      ⟨{ ({ ResponsePanel.fromResponse exampleTextResponse with
            inputPopup := some "out.txt", saveOption := .body } : ResponsePanel)
          with inputPopup := none },
        .ok .consumed, [("out.txt", .str "ok")], [.info "Saved to out.txt"]⟩ ∧
    ResponsePanel.onEvent
        (fun path _ => if path = "" then .error "ENOENT" else .ok ())
        { ResponsePanel.fromResponse exampleTextResponse with
          inputPopup := some "", saveOption := .body } .enter =
      ⟨{ ResponsePanel.fromResponse exampleTextResponse with
          inputPopup := some "", saveOption := .body },
        .error "ENOENT", [("", .str "ok")], []⟩ ∧
    ResponsePanel.onEvent
        (fun path _ => if path = "" then .error "ENOENT" else .ok ())
        { ResponsePanel.fromResponse exampleTextResponse with
          inputPopup := some "out.txt", saveOption := .body } .esc =
      ⟨{ ({ ResponsePanel.fromResponse exampleTextResponse with
            inputPopup := some "out.txt", saveOption := .body } : ResponsePanel)
          with inputPopup := none },
        .ok .consumed, [], []⟩ := by
  have h := responsePanel_save_path_flow
    (fun path _ => if path = "" then .error "ENOENT" else .ok ())
    (fun path _ => if path = "" then .error "ENOENT" else .ok ())
    { ResponsePanel.fromResponse exampleTextResponse with
      inputPopup := some "out.txt", saveOption := .body }
    { ResponsePanel.fromResponse exampleTextResponse with
      inputPopup := some "", saveOption := .body }
    "out.txt" (.str "ok") (.str "ok") "ENOENT" rfl rfl rfl rfl rfl rfl
  simpa using h

/-! ## Message dialog (src/rq-cli/src/components/message_dialog.rs)

The dialog owns at most one displayed message (`content : Option`); the
process-wide FIFO queue (`MESSAGES`, a locked `VecDeque` pushed at the
back and popped at the front) is passed explicitly. -/

structure MessageDialog where
  content : Option Message
deriving DecidableEq

/-- `MessageDialog::push_message`: append at the back of the queue. -/
def MessageDialog.pushMessage (queue : List Message) (m : Message) : List Message :=
  queue ++ [m]

/-- `MessageDialog::update`: keep an already displayed message,
otherwise pop the front of the queue into the dialog. -/
def MessageDialog.update (d : MessageDialog) (queue : List Message) :
    MessageDialog × List Message :=
  match d.content with
  | some _ => (d, queue)
  | none => (⟨queue.head?⟩, queue.tail)

/-- `MessageDialog::on_event`: any key dismisses a displayed message and
is consumed; with nothing displayed every key is ignored. -/
def MessageDialog.onEvent (d : MessageDialog) (_k : KeyCode) :
    MessageDialog × HandleSuccess :=
  match d.content with
  | some _ => (⟨none⟩, .consumed)
  | none => (d, .ignored)

/-- C8: the dialog pops the oldest queued message (the front; pushes
append at the back, preserving insertion order) only when none is
displayed, a displayed message freezes the queue, any key while a
message is shown dismisses it and is consumed unconditionally, and keys
are ignored while nothing is shown.  At most one message is displayed
at a time by construction (`content` is an `Option`). -/
theorem messageDialog_drain_policy (d : MessageDialog) (q : List Message)
    (k : KeyCode) (m : Message) :
    (d.content = some m → d.update q = (d, q)) ∧
    (d.content = none → d.update q = (⟨q.head?⟩, q.tail)) ∧
    (d.content = some m → d.onEvent k = (⟨none⟩, .consumed)) ∧
    (d.content = none → d.onEvent k = (d, .ignored)) ∧
    (∀ ms : List Message, ms.foldl MessageDialog.pushMessage q = q ++ ms) := by
  refine ⟨?_, ?_, ?_, ?_, ?_⟩
  · intro h; unfold MessageDialog.update; rw [h]
  · intro h; unfold MessageDialog.update; rw [h]
  · intro h; unfold MessageDialog.onEvent; rw [h]
  · intro h; unfold MessageDialog.onEvent; rw [h]
  · intro ms
    induction ms generalizing q with
    | nil => simp
    | cons x xs ih => simp [MessageDialog.pushMessage, ih]

/-! ## Application (src/rq-cli/src/app.rs with src/rq-cli/src/ui.rs)

The `App` of the revision that reports transport errors inline: one
`ResponseComponent` per request, a cyclic request cursor, a focus state,
a `should_exit` flag and an optional error-dialog text.  The request and
result channels are modelled by the submitted-requests output of the key
handler and the `recv` argument of `update`. -/

inductive HttpMethod where
  | get
  | post
  | put
  | delete
deriving DecidableEq

/-- src/rq-core/src/parser.rs `HttpRequest` (the `HashMap` headers as a
pair list in iteration order). -/
structure HttpRequest where
  method : HttpMethod
  url : String
  version : String
  headers : List (String × String)
  body : String
deriving DecidableEq

instance : Inhabited HttpRequest := ⟨⟨.get, "", "", [], ""⟩⟩

/-- src/rq-core/src/request.rs `Response` (the revision under src/,
whose payload is the `Content` of the same file): status rendering,
headers, version and body. -/
structure CoreResponse where
  status : String
  headers : List (String × String)
  version : String
  body : Content
deriving DecidableEq

instance {ε α : Type} [DecidableEq ε] [DecidableEq α] : DecidableEq (Except ε α) := fun x y =>
  match x, y with
  | .error a, .error b =>
    if h : a = b then .isTrue (by rw [h]) else .isFalse (fun hh => h (Except.error.inj hh))
  | .ok a, .ok b =>
    if h : a = b then .isTrue (by rw [h]) else .isFalse (fun hh => h (Except.ok.inj hh))
  | .error _, .ok _ => .isFalse (fun hh => Except.noConfusion hh)
  | .ok _, .error _ => .isFalse (fun hh => Except.noConfusion hh)

/-- src/rq-cli/src/ui.rs `ResponseComponent`: an optional request result
and a `u16` scroll offset. -/
structure ResponseComponent where
  response : Option (Except String CoreResponse)
  scroll : Int
deriving DecidableEq

/-- `ResponseComponent::new`. -/
def ResponseComponent.new (res : Except String CoreResponse) : ResponseComponent :=
  ⟨some res, 0⟩

def ResponseComponent.scrollDown (rc : ResponseComponent) : ResponseComponent :=
  { rc with scroll := u16SatAdd1 rc.scroll }

def ResponseComponent.scrollUp (rc : ResponseComponent) : ResponseComponent :=
  { rc with scroll := u16SatSub1 rc.scroll }

/-- `StatefulList::selected`: the item under the cursor.  Rust indexes
the vector (panicking when out of range); the total model falls back to
`default`. -/
def StatefulList.selectedItem {α : Type} [Inhabited α] (l : StatefulList α) : α :=
  l.items.getD l.selectedIndex default

/-- `vec[i] = x` / in-place mutation of one element, as the identity
beyond the end (where Rust would panic). -/
def listModify {α : Type} : List α → Nat → (α → α) → List α
  | [], _, _ => []
  | x :: xs, 0, f => f x :: xs
  | x :: xs, n + 1, f => x :: listModify xs n f

inductive FocusState where
  | requestsList
  | responseBuffer
deriving DecidableEq

structure App where
  responses : List ResponseComponent
  list : StatefulList HttpRequest
  shouldExit : Bool
  focus : FocusState
  error : Option String
  filePath : String
deriving DecidableEq

/-- One round of the `handle_requests` worker: receive `(req, i)`,
execute through the transport collaborator, and send the result —
success or error alike — with the index through the result channel. -/
def handleRequestsStep (exec : HttpRequest → Except String CoreResponse)
    (msg : HttpRequest × Nat) : Except String CoreResponse × Nat :=
  (exec msg.1, msg.2)

/-- `App::update`: a result polled from the channel replaces the
response component at its index with a fresh one (scroll reset) holding
the result, error results included; nothing received changes nothing.
The worker only sends indices below the request count, which equals
`responses.length`. -/
def App.update (a : App) (recv : Option (Except String CoreResponse × Nat)) : App :=
  match recv with
  | some ri => { a with responses := a.responses.set ri.2 (ResponseComponent.new ri.1) }
  | none => a

/-- The `j`/Down arm of `App::on_key_event`. -/
def App.keyDown (a : App) : App :=
  match a.focus with
  | .requestsList => { a with list := a.list.next }
  | .responseBuffer =>
    { a with responses :=
        listModify a.responses a.list.selectedIndex ResponseComponent.scrollDown }

/-- The `k`/Up arm of `App::on_key_event`. -/
def App.keyUp (a : App) : App :=
  match a.focus with
  | .requestsList => { a with list := a.list.previous }
  | .responseBuffer =>
    { a with responses :=
        listModify a.responses a.list.selectedIndex ResponseComponent.scrollUp }

/-- `if let Err(e) = save... { self.error = Some(e) }`: route a save
outcome into the inline error dialog.  The save functions themselves
(`save_to_file`, `save_body_to_file`) call `to_string`/`body` of a
ui.rs revision that is not among the repository files, so only their
`Result` is modelled, as an oracle. -/
def App.saveResult (a : App) (res : Except String Unit) : App :=
  match res with
  | .error e => { a with error := some e }
  | .ok _ => a

structure KeyEvent where
  code : KeyCode
  ctrl : Bool
deriving DecidableEq

/-- What `App::on_key_event` did: the new state and the requests it
submitted to the dispatcher channel. -/
structure AppStep where
  app : App
  submitted : List (HttpRequest × Nat)
deriving DecidableEq

/-- `App::on_key_event`: an active error dialog swallows the key and
closes; otherwise `q`/`Q` and Ctrl+`c` raise `should_exit`, `j`/`k` and
the arrows navigate or scroll by focus, Enter drills in or submits the
selected request, Esc leaves the response buffer, `s`/`S` run a save and
surface its failure in the error dialog, anything else is ignored. -/
def App.onKeyEvent (a : App) (e : KeyEvent)
    (saveAllRes saveBodyRes : Except String Unit) : AppStep :=
  if a.error.isSome then ⟨{ a with error := none }, []⟩
  else
    match e.code with
    | .char c =>
      if c = 'q' ∨ c = 'Q' then ⟨{ a with shouldExit := true }, []⟩
      else if c = 'c' then
        if e.ctrl then ⟨{ a with shouldExit := true }, []⟩ else ⟨a, []⟩
      else if c = 'j' then ⟨a.keyDown, []⟩
      else if c = 'k' then ⟨a.keyUp, []⟩
      else if c = 'h' ∨ c = 'l' then ⟨a, []⟩
      else if c = 's' then ⟨a.saveResult saveBodyRes, []⟩
      else if c = 'S' then ⟨a.saveResult saveAllRes, []⟩
      else ⟨a, []⟩
    | .down => ⟨a.keyDown, []⟩
    | .up => ⟨a.keyUp, []⟩
    | .left => ⟨a, []⟩
    | .right => ⟨a, []⟩
    | .enter =>
      match a.focus with
      | .requestsList => ⟨{ a with focus := .responseBuffer }, []⟩
      | .responseBuffer => ⟨a, [(a.list.selectedItem, a.list.selectedIndex)]⟩
    | .esc =>
      match a.focus with
      | .responseBuffer => ⟨{ a with focus := .requestsList }, []⟩
      | .requestsList => ⟨a, []⟩
    | _ => ⟨a, []⟩

def exampleHttpRequest : HttpRequest := ⟨.get, "http://x", "1.1", [], ""⟩

/-- `ok` as scalar values: the body text of the example response. -/
def exampleCoreResponse : CoreResponse := ⟨"200 OK", [], "HTTP/1.1", .text [111, 107]⟩

/-- A running app: one request, its panel loaded with a success and
scrolled to 3, focus on the response buffer. -/
def exampleApp : App :=
  ⟨[⟨some (.ok exampleCoreResponse), 3⟩],
    StatefulList.withItems [exampleHttpRequest], false, .responseBuffer, none,
    "reqs.http"⟩

/-- C2 counterexample: a transport failure is not dropped by the worker
— it is sent through the result channel like a success — and
`App::update` then overwrites the panel at that index (previously loaded
and scrolled) with an inline error component, so the panel does not keep
its prior state. -/
theorem app_transport_error_replaces_panel :
    handleRequestsStep (fun _ => .error "connection refused")
      (exampleHttpRequest, 0) = (.error "connection refused", 0) ∧
    (exampleApp.update (some (.error "connection refused", 0))).responses =
      [⟨some (.error "connection refused"), 0⟩] ∧
    (exampleApp.update (some (.error "connection refused", 0))).responses ≠
      exampleApp.responses := by
  refine ⟨rfl, rfl, by decide⟩

/-- C2 (amended): on transport failure the worker delivers the error
through the result channel exactly like a success, and `App::update`
replaces the response slot at that index with a fresh component holding
the error (scroll reset) — instead of pushing an `Error` message and
leaving the panel unchanged.  All other slots and the rest of the app
state are untouched, and a tick that receives nothing changes nothing. -/
theorem app_update_delivers_error_inline (exec : HttpRequest → Except String CoreResponse)
    (req : HttpRequest) (i : Nat) (a : App) (res : Except String CoreResponse)
    (hi : i < a.responses.length) :
    handleRequestsStep exec (req, i) = (exec req, i) ∧
    (a.update (some (res, i))).responses[i]? = some (ResponseComponent.new res) ∧
    (∀ j, j ≠ i → (a.update (some (res, i))).responses[j]? = a.responses[j]?) ∧
    (a.update (some (res, i))).responses.length = a.responses.length ∧
    (a.update (some (res, i))).focus = a.focus ∧
    (a.update (some (res, i))).error = a.error ∧
    (a.update (some (res, i))).shouldExit = a.shouldExit ∧
    a.update none = a := by
  refine ⟨rfl, ?_, ?_, ?_, rfl, rfl, rfl, rfl⟩
  · simp [App.update, List.getElem?_set, hi]
  · intro j hj
    simp [App.update, List.getElem?_set, hj, Ne.symm hj]
  · simp [App.update]

/-- Witness for `app_update_delivers_error_inline` at the example app
and a failing transport. -/
theorem app_update_delivers_error_inline_witness :
    0 < exampleApp.responses.length ∧
    (handleRequestsStep (fun _ => .error "boom") (exampleHttpRequest, 0) =
        ((fun _ => (.error "boom" : Except String CoreResponse)) exampleHttpRequest, 0) ∧
      (exampleApp.update (some (.error "boom", 0))).responses[0]? =
        some (ResponseComponent.new (.error "boom")) ∧
      (∀ j, j ≠ 0 → (exampleApp.update (some (.error "boom", 0))).responses[j]? =
        exampleApp.responses[j]?) ∧
      (exampleApp.update (some (.error "boom", 0))).responses.length =
        exampleApp.responses.length ∧
      (exampleApp.update (some (.error "boom", 0))).focus = exampleApp.focus ∧
      (exampleApp.update (some (.error "boom", 0))).error = exampleApp.error ∧
      (exampleApp.update (some (.error "boom", 0))).shouldExit = exampleApp.shouldExit ∧
      exampleApp.update none = exampleApp) :=
  ⟨by decide, app_update_delivers_error_inline (fun _ => .error "boom")
    exampleHttpRequest 0 exampleApp (.error "boom") (by decide)⟩

def exampleAppError : App := { exampleApp with error := some "write failed" }

/-- C3 counterexample: with the error dialog open, `q` does not set
`should_exit` — the dismiss-error check runs first and consumes the key,
only closing the dialog. -/
theorem app_quit_key_blocked_by_error_dialog :
    exampleAppError.error = some "write failed" ∧
    (exampleAppError.onKeyEvent ⟨.char 'q', false⟩ (.ok ()) (.ok ())).app.shouldExit =
      false ∧
    (exampleAppError.onKeyEvent ⟨.char 'q', false⟩ (.ok ()) (.ok ())).app.error =
      none :=
  ⟨rfl, rfl, rfl⟩

/-- `q`, `Q` or Ctrl+`c`. -/
def isQuitKey (e : KeyEvent) : Prop :=
  e.code = .char 'q' ∨ e.code = .char 'Q' ∨ (e.code = .char 'c' ∧ e.ctrl = true)

/-- C3 (amended): when no error dialog is displayed, the quit keys set
`should_exit` from any focus state and do nothing else (no submission,
no other routing); while the error dialog is displayed, any key — the
quit keys included — only dismisses the dialog and is consumed. -/
theorem app_quit_keys_precedence (a : App) (e : KeyEvent)
    (sa sb : Except String Unit) :
    (a.error = none → isQuitKey e →
      a.onKeyEvent e sa sb = ⟨{ a with shouldExit := true }, []⟩) ∧
    (∀ m, a.error = some m →
      a.onKeyEvent e sa sb = ⟨{ a with error := none }, []⟩) := by
  constructor
  · intro herr hq
    unfold App.onKeyEvent
    rw [herr, if_neg (by decide)]
    rcases hq with h | h | ⟨h, hc⟩
    · rw [h]
      dsimp only
      rw [if_pos (Or.inl rfl)]
    · rw [h]
      dsimp only
      rw [if_pos (Or.inr rfl)]
    · rw [h]
      dsimp only
      rw [if_neg (by decide), if_pos rfl, hc, if_pos rfl]
  · intro m hm
    unfold App.onKeyEvent
    rw [hm]
    rfl

/-! ## The scroll offset (C9) -/

theorem u16SatAdd1_nonneg (n : Int) (h : 0 ≤ n) : 0 ≤ u16SatAdd1 n := by
  unfold u16SatAdd1; split <;> omega

theorem u16SatSub1_nonneg (n : Int) (h : 0 ≤ n) : 0 ≤ u16SatSub1 n := by
  unfold u16SatSub1; split <;> omega

/-- Every key leaves the panel scroll either unchanged or moved by one
saturating step. -/
theorem ResponsePanel.onEventBase_scroll (p : ResponsePanel) (k : KeyCode) :
    (p.onEventBase k).panel.scroll = p.scroll ∨
    (p.onEventBase k).panel.scroll = u16SatAdd1 p.scroll ∨
    (p.onEventBase k).panel.scroll = u16SatSub1 p.scroll := by
  cases k with
  | down => exact Or.inr (Or.inl rfl)
  | up => exact Or.inr (Or.inr rfl)
  | char c =>
    unfold ResponsePanel.onEventBase
    dsimp only
    split_ifs <;>
      first
      | exact Or.inr (Or.inl rfl)
      | exact Or.inr (Or.inr rfl)
      | exact Or.inl rfl
  | enter => exact Or.inl rfl
  | esc => exact Or.inl rfl
  | left => exact Or.inl rfl
  | right => exact Or.inl rfl
  | backspace => exact Or.inl rfl
  | other => exact Or.inl rfl

theorem ResponsePanel.onEventMenu_scroll (p : ResponsePanel) (k : KeyCode) :
    (p.onEventMenu k).panel.scroll = p.scroll ∨
    (p.onEventMenu k).panel.scroll = u16SatAdd1 p.scroll ∨
    (p.onEventMenu k).panel.scroll = u16SatSub1 p.scroll := by
  unfold ResponsePanel.onEventMenu
  cases hm : p.saveMenu with
  | none => exact p.onEventBase_scroll k
  | some menu =>
    dsimp only
    cases hme : menu.onEvent k with
    | some m2 => exact Or.inl rfl
    | none =>
      cases k with
      | enter => exact Or.inl rfl
      | esc => exact Or.inl rfl
      | down => exact p.onEventBase_scroll .down
      | up => exact p.onEventBase_scroll .up
      | left => exact p.onEventBase_scroll .left
      | right => exact p.onEventBase_scroll .right
      | backspace => exact p.onEventBase_scroll .backspace
      | char c => exact p.onEventBase_scroll (.char c)
      | other => exact p.onEventBase_scroll .other

theorem ResponsePanel.onEvent_scroll (fs : String → SaveData → Except String Unit)
    (p : ResponsePanel) (k : KeyCode) :
    ((ResponsePanel.onEvent fs p k).panel).scroll = p.scroll ∨
    ((ResponsePanel.onEvent fs p k).panel).scroll = u16SatAdd1 p.scroll ∨
    ((ResponsePanel.onEvent fs p k).panel).scroll = u16SatSub1 p.scroll := by
  unfold ResponsePanel.onEvent
  cases hip : p.inputPopup with
  | none => exact p.onEventMenu_scroll k
  | some v =>
    dsimp only
    cases hin : inputHandle k v with
    | some v2 => exact Or.inl rfl
    | none =>
      cases k with
      | enter =>
        dsimp only
        cases hts : p.toSave with
        | error e => exact Or.inl rfl
        | ok d =>
          dsimp only
          cases hfs : fs v d with
          | error e => exact Or.inl rfl
          | ok u => exact Or.inl rfl
      | esc => exact Or.inl rfl
      | down => exact p.onEventMenu_scroll .down
      | up => exact p.onEventMenu_scroll .up
      | left => exact p.onEventMenu_scroll .left
      | right => exact p.onEventMenu_scroll .right
      | backspace => exact p.onEventMenu_scroll .backspace
      | char c => exact p.onEventMenu_scroll (.char c)
      | other => exact p.onEventMenu_scroll .other

/-- C9: the scroll offset never goes negative — both saturating steps
preserve non-negativity, `scroll_up` saturates at 0 (any number of
repetitions from 0 stays at 0), every key event on the response panel
keeps the offset non-negative, `ResponseComponent`'s scroll operations
do too, and so does any sequence of key events. -/
theorem scroll_offset_nonneg :
    (∀ n : Int, 0 ≤ n → 0 ≤ u16SatAdd1 n ∧ 0 ≤ u16SatSub1 n) ∧
    u16SatSub1 0 = 0 ∧
    (∀ k : Nat, u16SatSub1^[k] 0 = 0) ∧
    (∀ (fs : String → SaveData → Except String Unit) (p : ResponsePanel)
        (k : KeyCode), 0 ≤ p.scroll →
      0 ≤ ((ResponsePanel.onEvent fs p k).panel).scroll) ∧
    (∀ rc : ResponseComponent, 0 ≤ rc.scroll →
      0 ≤ rc.scrollDown.scroll ∧ 0 ≤ rc.scrollUp.scroll) ∧
    (∀ (ks : List KeyCode) (fs : String → SaveData → Except String Unit)
        (p : ResponsePanel), 0 ≤ p.scroll →
      0 ≤ (ks.foldl (fun q k => (ResponsePanel.onEvent fs q k).panel) p).scroll) := by
  have hstep : ∀ (fs : String → SaveData → Except String Unit) (p : ResponsePanel)
      (k : KeyCode), 0 ≤ p.scroll → 0 ≤ ((ResponsePanel.onEvent fs p k).panel).scroll := by
    intro fs p k h
    rcases ResponsePanel.onEvent_scroll fs p k with h1 | h1 | h1 <;> rw [h1]
    · exact h
    · exact u16SatAdd1_nonneg _ h
    · exact u16SatSub1_nonneg _ h
  refine ⟨fun n h => ⟨u16SatAdd1_nonneg n h, u16SatSub1_nonneg n h⟩, by decide, ?_,
    hstep, ?_, ?_⟩
  · intro k
    induction k with
    | zero => rfl
    | succ k ih => rw [Function.iterate_succ_apply', ih]; decide
  · intro rc h
    exact ⟨u16SatAdd1_nonneg _ h, u16SatSub1_nonneg _ h⟩
  · intro ks
    induction ks with
    | nil => intro fs p h; simpa using h
    | cons k ks ih =>
      intro fs p h
      simpa using ih fs (ResponsePanel.onEvent fs p k).panel (hstep fs p k h)

/-! ## Startup (src/rq-cli/src/main.rs and src/rq-core/src/parser.rs)

The pest grammar (`grammar.pest`) is not among the repository files, so
the grammar-level parser is a collaborator parameter (the spec:
`parse(text) -> ordered list of Request, or ParseError`); so is the
filesystem read.  What is modelled from the sources is the control
flow: the missing-argument branch, the `?` on `fs::read_to_string` (a
`main` returning `Err` reports it and exits with code 1), the
`parsing error:` branch, and — decisive for C4 — the
`.expect("unable to parse")` inside `parse`, which panics (the process
aborts with code 101) instead of returning the error. -/

structure HttpFile where
  requests : List HttpRequest

/-- The outcome of `rq_core::parser::parse`. -/
inductive ParseOutcome where
  | panicked (msg : String)
  | failed (e : String)
  | parsed (f : HttpFile)

/-- `parse`: run the pest grammar over the left-trimmed input —
`.expect("unable to parse")` turns a grammar failure into a panic — then
build the `HttpFile` (whose `TryFrom` can itself fail, which *would*
return `Err`). -/
def parse (α : Type) (pest : String → Option α)
    (tryFrom : α → Except String HttpFile) (input : String) : ParseOutcome :=
  match pest input.trimLeft with
  | none => .panicked "unable to parse"
  | some pair =>
    match tryFrom pair with
    | .error e => .failed e
    | .ok f => .parsed f

/-- How the process ends. -/
inductive ProcessResult where
  | exited (code : Nat)
  | panicked (msg : String)

/-- `main`: no argument → usage error, exit 1; unreadable file → the `?`
propagates, exit 1; `parse` error → `parsing error:` message, exit 1;
a grammar-level failure inside `parse` → panic (exit code 101); after a
successful run the process exits 0. -/
def rqMain (α : Type) (args : List String) (readFile : String → Except String String)
    (pest : String → Option α) (tryFrom : α → Except String HttpFile) : ProcessResult :=
  match args[1]? with
  | none => .exited 1
  | some path =>
    match readFile path with
    | .error _ => .exited 1
    | .ok content =>
      match parse α pest tryFrom content with
      | .panicked m => .panicked m
      | .failed _ => .exited 1
      | .parsed _ => .exited 0

/-- C4: the missing-argument and unreadable-file branches do print and
exit with code 1 as claimed — but a request file the grammar rejects
does not: `parse`'s `.expect` panics, the process aborts with the
panic (exit code 101), and main.rs's `parsing error:`/exit-1 branch is
unreachable for grammar failures. -/
theorem rqMain_parse_failure_panics :
    rqMain Unit ["rq", "reqs.http"] (fun _ => .ok "garbage") (fun _ => none)
      (fun _ => .error "no pairs") = .panicked "unable to parse" ∧
    rqMain Unit ["rq"] (fun _ => .ok "") (fun _ => none)
      (fun _ => .error "") = .exited 1 ∧
    rqMain Unit ["rq", "missing.http"] (fun _ => .error "No such file")
      (fun _ => none) (fun _ => .error "") = .exited 1 ∧
    rqMain Unit ["rq", "reqs.http"] (fun _ => .ok "GET http://x HTTP/1.1")
      (fun _ => some ()) (fun _ => .ok ⟨[exampleHttpRequest]⟩) = .exited 0 :=
  ⟨rfl, rfl, rfl, rfl⟩

end Rq
